import Mathlib

/-!
Verification of the `CodeEditorWrapper` widget
(`src/packages/codeeditor/src/widget.ts`): a host widget that owns a code
editor, forwards lifecycle messages to editor operations, and reflects the
current selection into two CSS class flags on its node.
-/

namespace CodeEditorWidget

/-- The class name added to an editor widget that has a primary selection
(`HAS_SELECTION_CLASS` in the source). -/
def HAS_SELECTION_CLASS : String := "jp-mod-has-primary-selection"

/-- The class name added to an editor widget whose cursor sits in the leading
whitespace of a line (`HAS_IN_LEADING_WHITESPACE_CLASS` in the source). -/
def HAS_IN_LEADING_WHITESPACE_CLASS : String := "jp-mod-in-leading-whitespace"

/-- JavaScript `\s` character class: the whitespace characters recognised by
the regular expression `/^\s+$/` (`leadingWhitespaceRe` in the source). -/
def isJsWhitespace (c : Char) : Bool :=
  c = ' ' || c = '\t' || c = '\n' || c = '\r' ||
  c.val = 11 || c.val = 12 || c.val = 0xa0 || c.val = 0x1680 ||
  (0x2000 ≤ c.val && c.val ≤ 0x200a) ||
  c.val = 0x2028 || c.val = 0x2029 || c.val = 0x202f || c.val = 0x205f ||
  c.val = 0x3000 || c.val = 0xfeff

/-- `str.match(leadingWhitespaceRe)` is truthy exactly when `str` consists of
one or more whitespace characters (`/^\s+$/` is anchored at both ends). -/
def testLeadingWhitespace (str : String) : Bool :=
  !str.isEmpty && str.data.all isJsWhitespace

/-- JavaScript `str.slice(0, n)` for a non-negative `n`: the first `n`
characters of `str` (the whole string when `n` exceeds its length). -/
def jsSliceTo (str : String) (n : Nat) : String :=
  ⟨str.data.take n⟩

/-- A position in the editor text: `{line, column}`, both non-negative. -/
structure Position where
  line : Nat
  column : Nat
deriving DecidableEq, Repr

/-- A selection `{start, end}` as returned by `editor.getSelection()`. -/
structure Selection where
  start : Position
  «end» : Position
deriving DecidableEq, Repr

/-- Phosphor `Widget.addClass`: appends the class unless already present. -/
def addClass (cs : List String) (c : String) : List String :=
  if c ∈ cs then cs else cs ++ [c]

/-- Phosphor `Widget.removeClass`: removes every occurrence of the class. -/
def removeClass (cs : List String) (c : String) : List String :=
  cs.filter (fun x => x ≠ c)

/-- The mutable state of the host widget that the wrapper's own code touches:
the CSS classes on its node, the disposed flag, and its visibility. -/
structure HostState where
  classes : List String
  disposed : Bool
  visible : Bool
deriving DecidableEq, Repr

/-- The calls the wrapper makes on its editor and on its base class, recorded
as a trace. -/
inductive Action where
  | focus
  | refresh
  | setSize (width height : Int)
  | resizeToFit
  | superAfterAttach
  | requestUpdate
  | superDispose
  | disposeEditor
deriving DecidableEq, Repr

/-- `_onSelectionsChanged`: classifies `editor.getSelection()` and toggles the
two class flags.  `getLine` models `editor.getLine`, which can yield no string
for an out-of-range line; in that case the caret branch, which slices the
result without a definedness check, throws — modelled as `none`. -/
def onSelectionsChanged (getLine : Nat → Option String)
    (sel : Selection) (s : HostState) : Option HostState :=
  if sel.start.column ≠ sel.«end».column ∨ sel.start.line ≠ sel.«end».line then
    -- a selection was made
    some { s with classes := removeClass (addClass s.classes HAS_SELECTION_CLASS) HAS_IN_LEADING_WHITESPACE_CLASS }
  else
    -- the cursor was placed
    match getLine sel.«end».line with
    | none => none
    | some line =>
      if testLeadingWhitespace (jsSliceTo line sel.«end».column) then
        some { s with classes := addClass (removeClass s.classes HAS_SELECTION_CLASS) HAS_IN_LEADING_WHITESPACE_CLASS }
      else
        some { s with classes := removeClass (removeClass s.classes HAS_SELECTION_CLASS) HAS_IN_LEADING_WHITESPACE_CLASS }

/-- `onActivateRequest`: focuses the editor unconditionally. -/
def onActivateRequest (s : HostState) : HostState × List Action :=
  (s, [Action.focus])

/-- `onAfterAttach`: runs the base attach behaviour, then requests an update
only when the host is visible. -/
def onAfterAttach (s : HostState) : HostState × List Action :=
  if s.visible then (s, [Action.superAfterAttach, Action.requestUpdate])
  else (s, [Action.superAfterAttach])

/-- `onAfterShow`: requests an update unconditionally. -/
def onAfterShow (s : HostState) : HostState × List Action :=
  (s, [Action.requestUpdate])

/-- `onResize`: sets the editor size when both dimensions are non-negative;
otherwise fits the editor to the host, but only while visible. -/
def onResize (width height : Int) (s : HostState) : HostState × List Action :=
  if width ≥ 0 ∧ height ≥ 0 then (s, [Action.setSize width height])
  else if s.visible then (s, [Action.resizeToFit])
  else (s, [])

/-- `onUpdateRequest`: refreshes the editor unconditionally. -/
def onUpdateRequest (s : HostState) : HostState × List Action :=
  (s, [Action.refresh])

/-- `dispose`: no-op when already disposed; otherwise the base class dispose
(which marks the widget disposed and releases container resources) runs
first, then the owned editor is disposed. -/
def dispose (s : HostState) : HostState × List Action :=
  if s.disposed then (s, [])
  else ({ s with disposed := true }, [Action.superDispose, Action.disposeEditor])

/-- The notifications the wrapper reacts to, together with an explicit
`dispose` call and the model's selection-changed signal. -/
inductive HostEvent where
  | activateRequest
  | afterAttach
  | afterShow
  | resize (width height : Int)
  | updateRequest
  | disposeCall
  | selectionsChanged (sel : Selection)
deriving DecidableEq, Repr

/-- One step of the host: dispatches an event to the corresponding handler.
`none` models the handler throwing (only the selection handler can, when
`getLine` yields no string for the caret's line). -/
def handleEvent (getLine : Nat → Option String) (e : HostEvent)
    (s : HostState) : Option (HostState × List Action) :=
  match e with
  | HostEvent.activateRequest => some (onActivateRequest s)
  | HostEvent.afterAttach => some (onAfterAttach s)
  | HostEvent.afterShow => some (onAfterShow s)
  | HostEvent.resize w h => some (onResize w h s)
  | HostEvent.updateRequest => some (onUpdateRequest s)
  | HostEvent.disposeCall => some (dispose s)
  | HostEvent.selectionsChanged sel =>
    (onSelectionsChanged getLine sel s).map (fun s2 => (s2, []))

/-- The arguments the constructor passes to the supplied factory. -/
structure FactoryArgs (N M U C S : Type) where
  host : N
  model : M
  uuid : Option U
  config : Option C
  selectionStyle : Option S
deriving DecidableEq, Repr

/-- `CodeEditorWrapper.IOptions` (minus the factory itself). -/
structure WrapperOptions (M U C S : Type) where
  model : M
  uuid : Option U
  config : Option C
  selectionStyle : Option S
deriving DecidableEq, Repr

/-- Events observable during construction: each factory invocation with its
arguments, and the subscription to `editor.model.selections.changed`. -/
inductive ConstructEvent (N M U C S : Type) where
  | factoryCalled (args : FactoryArgs N M U C S)
  | connectedSelectionsChanged
deriving DecidableEq, Repr

/-- The constructor: builds the factory arguments from its own node and the
options, calls the factory once, and — only on success — stores the editor
and connects the selection-changed handler.  A factory exception is modelled
as `Except.error` and propagates. -/
def mkFactoryArgs {N M U C S : Type}
    (options : WrapperOptions M U C S) (node : N) : FactoryArgs N M U C S :=
  { host := node, model := options.model, uuid := options.uuid,
    config := options.config, selectionStyle := options.selectionStyle }

/-- The constructor body, continued: dispatch on the factory's outcome. -/
def construct {N M U C S E ε : Type}
    (factory : FactoryArgs N M U C S → Except ε E)
    (options : WrapperOptions M U C S) (node : N) :
    Except ε E × List (ConstructEvent N M U C S) :=
  let args : FactoryArgs N M U C S := mkFactoryArgs options node
  match factory args with
  | Except.error e => (Except.error e, [ConstructEvent.factoryCalled args])
  | Except.ok ed =>
    (Except.ok ed,
     [ConstructEvent.factoryCalled args,
      ConstructEvent.connectedSelectionsChanged])

/-- At most one of the two selection-related class flags is present. -/
def exclusiveFlags (cs : List String) : Prop :=
  ¬(HAS_SELECTION_CLASS ∈ cs ∧ HAS_IN_LEADING_WHITESPACE_CLASS ∈ cs)

/-! ## Helper lemmas about the class-list operations -/

theorem mem_addClass_iff (cs : List String) (c c' : String) :
    c' ∈ addClass cs c ↔ c' ∈ cs ∨ c' = c := by
  unfold addClass
  split
  · rename_i hmem
    constructor
    · exact Or.inl
    · rintro (h | rfl)
      · exact h
      · exact hmem
  · simp [List.mem_append]

theorem mem_addClass_self (cs : List String) (c : String) : c ∈ addClass cs c :=
  (mem_addClass_iff cs c c).mpr (Or.inr rfl)

theorem mem_removeClass_iff (cs : List String) (c c' : String) :
    c' ∈ removeClass cs c ↔ c' ∈ cs ∧ c' ≠ c := by
  simp [removeClass, List.mem_filter]

theorem not_mem_removeClass_self (cs : List String) (c : String) :
    c ∉ removeClass cs c := by
  simp [mem_removeClass_iff]

theorem class_names_distinct :
    HAS_SELECTION_CLASS ≠ HAS_IN_LEADING_WHITESPACE_CLASS := by
  decide

theorem testLeadingWhitespace_eq_true_iff (p : String) :
    testLeadingWhitespace p = true ↔
      p ≠ "" ∧ ∀ c ∈ p.data, isJsWhitespace c = true := by
  simp [testLeadingWhitespace, List.all_eq_true, Bool.eq_false_iff,
    String.isEmpty_iff]

/-! ## Claims about the selection classifier -/

/-- C1: for every selection whose start and end differ in line or in column,
the selection-changed handler succeeds, sets `HAS_SELECTION_CLASS` on the
host's node, and clears `HAS_IN_LEADING_WHITESPACE_CLASS`. -/
theorem range_selection_flags (getLine : Nat → Option String)
    (sel : Selection) (s : HostState)
    (h : sel.start.column ≠ sel.«end».column ∨ sel.start.line ≠ sel.«end».line) :
    ∃ s2, onSelectionsChanged getLine sel s = some s2 ∧
      HAS_SELECTION_CLASS ∈ s2.classes ∧
      HAS_IN_LEADING_WHITESPACE_CLASS ∉ s2.classes := by
  refine ⟨{ s with classes := removeClass (addClass s.classes HAS_SELECTION_CLASS) HAS_IN_LEADING_WHITESPACE_CLASS }, ?_, ?_, ?_⟩
  · simp only [onSelectionsChanged, if_pos h]
  · exact (mem_removeClass_iff _ _ _).mpr
      ⟨mem_addClass_self _ _, class_names_distinct⟩
  · exact not_mem_removeClass_self _ _

/-- Witness for C1: a one-column range selection at a concrete state. -/
theorem range_selection_flags_witness :
    ∃ s2, onSelectionsChanged (fun _ => none) ⟨⟨0, 0⟩, ⟨0, 1⟩⟩
        ⟨[], false, false⟩ = some s2 ∧
      HAS_SELECTION_CLASS ∈ s2.classes ∧
      HAS_IN_LEADING_WHITESPACE_CLASS ∉ s2.classes :=
  range_selection_flags (fun _ => none) ⟨⟨0, 0⟩, ⟨0, 1⟩⟩ ⟨[], false, false⟩
    (Or.inl (by decide))

/-- C2: for a caret (start equals end in line and column) on a line the
editor yields, the handler succeeds, clears `HAS_SELECTION_CLASS`, and sets
`HAS_IN_LEADING_WHITESPACE_CLASS` exactly when the slice of the line up to
the caret column is non-empty and all-whitespace. -/
theorem caret_whitespace_flags (getLine : Nat → Option String)
    (sel : Selection) (s : HostState) (line : String)
    (hc : sel.start.column = sel.«end».column)
    (hl : sel.start.line = sel.«end».line)
    (hline : getLine sel.«end».line = some line) :
    ∃ s2, onSelectionsChanged getLine sel s = some s2 ∧
      HAS_SELECTION_CLASS ∉ s2.classes ∧
      (HAS_IN_LEADING_WHITESPACE_CLASS ∈ s2.classes ↔
        (jsSliceTo line sel.«end».column ≠ "" ∧
          ∀ c ∈ (jsSliceTo line sel.«end».column).data,
            isJsWhitespace c = true)) := by
  have hcond :
      ¬(sel.start.column ≠ sel.«end».column ∨ sel.start.line ≠ sel.«end».line) := by
    simp [hc, hl]
  simp only [onSelectionsChanged, if_neg hcond, hline]
  by_cases hw : testLeadingWhitespace (jsSliceTo line sel.«end».column) = true
  · rw [if_pos hw]
    refine ⟨_, rfl, ?_, ?_⟩
    · intro hmem
      rcases (mem_addClass_iff _ _ _).mp hmem with h1 | h2
      · exact not_mem_removeClass_self _ _ h1
      · exact class_names_distinct h2
    · exact ⟨fun _ => (testLeadingWhitespace_eq_true_iff _).mp hw,
        fun _ => mem_addClass_self _ _⟩
  · rw [if_neg hw]
    refine ⟨_, rfl, ?_, ?_⟩
    · intro hmem
      exact not_mem_removeClass_self _ _ ((mem_removeClass_iff _ _ _).mp hmem).1
    · constructor
      · intro hmem
        exact absurd hmem (not_mem_removeClass_self _ _)
      · intro hws
        exact absurd ((testLeadingWhitespace_eq_true_iff _).mpr hws) hw

/-- Witness for C2: the spec's concrete scenario, caret at column 4 of
`"    x = 1"`. -/
theorem caret_whitespace_flags_witness :
    ∃ s2, onSelectionsChanged (fun _ => some "    x = 1") ⟨⟨0, 4⟩, ⟨0, 4⟩⟩
        ⟨[], false, false⟩ = some s2 ∧
      HAS_SELECTION_CLASS ∉ s2.classes ∧
      (HAS_IN_LEADING_WHITESPACE_CLASS ∈ s2.classes ↔
        (jsSliceTo "    x = 1" 4 ≠ "" ∧
          ∀ c ∈ (jsSliceTo "    x = 1" 4).data, isJsWhitespace c = true)) :=
  caret_whitespace_flags (fun _ => some "    x = 1") ⟨⟨0, 4⟩, ⟨0, 4⟩⟩
    ⟨[], false, false⟩ "    x = 1" rfl rfl rfl

/-- C3: for a caret at column 0 of a line the editor yields, the handler
succeeds and leaves both `HAS_SELECTION_CLASS` and
`HAS_IN_LEADING_WHITESPACE_CLASS` absent: the empty slice fails the
whitespace-only test. -/
theorem caret_col_zero_flags (getLine : Nat → Option String)
    (sel : Selection) (s : HostState) (line : String)
    (hse : sel.start = sel.«end») (hcol : sel.«end».column = 0)
    (hline : getLine sel.«end».line = some line) :
    ∃ s2, onSelectionsChanged getLine sel s = some s2 ∧
      HAS_SELECTION_CLASS ∉ s2.classes ∧
      HAS_IN_LEADING_WHITESPACE_CLASS ∉ s2.classes := by
  have hcond :
      ¬(sel.start.column ≠ sel.«end».column ∨ sel.start.line ≠ sel.«end».line) := by
    simp [hse]
  have hw : testLeadingWhitespace (jsSliceTo line sel.«end».column) = false := by
    rw [hcol]
    simp only [jsSliceTo, List.take_zero]
    decide
  simp only [onSelectionsChanged, if_neg hcond, hline, hw, Bool.false_eq_true,
    if_false]
  refine ⟨_, rfl, ?_, ?_⟩
  · intro hmem
    exact not_mem_removeClass_self _ _ ((mem_removeClass_iff _ _ _).mp hmem).1
  · exact not_mem_removeClass_self _ _

/-- Witness for C3: caret at column 0 of line 2, line text `"abc"`. -/
theorem caret_col_zero_flags_witness :
    ∃ s2, onSelectionsChanged (fun _ => some "abc") ⟨⟨2, 0⟩, ⟨2, 0⟩⟩
        ⟨[], false, false⟩ = some s2 ∧
      HAS_SELECTION_CLASS ∉ s2.classes ∧
      HAS_IN_LEADING_WHITESPACE_CLASS ∉ s2.classes :=
  caret_col_zero_flags (fun _ => some "abc") ⟨⟨2, 0⟩, ⟨2, 0⟩⟩
    ⟨[], false, false⟩ "abc" rfl rfl rfl

/-! ## Claims about the lifecycle handlers -/

/-- C4: `onResize` calls `setSize` exactly when both dimensions are
non-negative, regardless of visibility; otherwise it calls `resizeToFit`
exactly when the host is visible; with a negative dimension while hidden it
performs no editor operation at all. -/
theorem resize_guards (w h : Int) (s : HostState) :
    ((Action.setSize w h ∈ (onResize w h s).2) ↔ (w ≥ 0 ∧ h ≥ 0)) ∧
    ((Action.resizeToFit ∈ (onResize w h s).2) ↔
      (¬(w ≥ 0 ∧ h ≥ 0) ∧ s.visible = true)) ∧
    (¬(w ≥ 0 ∧ h ≥ 0) → s.visible = false → onResize w h s = (s, [])) := by
  by_cases hwh : w ≥ 0 ∧ h ≥ 0
  · simp [onResize, hwh]
  · cases hv : s.visible
    · simp [onResize, hwh, hv]
    · simp [onResize, hwh, hv]

/-- Witness for C4: resize `(-1, -1)` on a hidden host does nothing. -/
theorem resize_guards_witness :
    onResize (-1) (-1) ⟨[], false, false⟩ = (⟨[], false, false⟩, []) :=
  (resize_guards (-1) (-1) ⟨[], false, false⟩).2.2 (by decide) rfl

/-- C6: disposal is idempotent: the first call on a not-yet-disposed host
marks it disposed and performs the base-class dispose followed by the owned
editor's dispose; the second call is a no-op, so the editor is disposed
exactly once across both calls. -/
theorem dispose_idempotent (s : HostState) (hnd : s.disposed = false) :
    (dispose s).1.disposed = true ∧
    (dispose s).2 = [Action.superDispose, Action.disposeEditor] ∧
    dispose (dispose s).1 = ((dispose s).1, []) ∧
    ((dispose s).2 ++ (dispose (dispose s).1).2).count Action.disposeEditor
      = 1 := by
  simp [dispose, hnd]

/-- Witness for C6: double dispose from a fresh host state. -/
theorem dispose_idempotent_witness :
    (dispose ⟨[], false, true⟩).1.disposed = true ∧
    (dispose ⟨[], false, true⟩).2
      = [Action.superDispose, Action.disposeEditor] ∧
    dispose (dispose ⟨[], false, true⟩).1 = ((dispose ⟨[], false, true⟩).1, []) ∧
    ((dispose ⟨[], false, true⟩).2
      ++ (dispose (dispose ⟨[], false, true⟩).1).2).count Action.disposeEditor
      = 1 :=
  dispose_idempotent ⟨[], false, true⟩ rfl

/-- C8: after-attach runs the base attach behaviour and requests an update
only when visible; after-show requests an update unconditionally;
update-request refreshes the editor unconditionally. -/
theorem attach_show_update_contract (s : HostState) :
    (s.visible = true →
      onAfterAttach s = (s, [Action.superAfterAttach, Action.requestUpdate])) ∧
    (s.visible = false → onAfterAttach s = (s, [Action.superAfterAttach])) ∧
    onAfterShow s = (s, [Action.requestUpdate]) ∧
    onUpdateRequest s = (s, [Action.refresh]) := by
  refine ⟨fun hv => ?_, fun hv => ?_, rfl, rfl⟩
  · simp [onAfterAttach, hv]
  · simp [onAfterAttach, hv]

/-- Witness for C8: after-attach on a visible host. -/
theorem attach_show_update_contract_witness :
    onAfterAttach ⟨[], false, true⟩
      = (⟨[], false, true⟩, [Action.superAfterAttach, Action.requestUpdate]) :=
  (attach_show_update_contract ⟨[], false, true⟩).1 rfl

/-- C10: even on a disposed host, activate-request still focuses the editor,
update-request still refreshes it, and resize still forwards under its usual
guards: disposal does not disable the editor-forwarding handlers. -/
theorem disposed_handlers_still_forward (s : HostState)
    (_hd : s.disposed = true) (w h : Int) :
    onActivateRequest s = (s, [Action.focus]) ∧
    onUpdateRequest s = (s, [Action.refresh]) ∧
    ((w ≥ 0 ∧ h ≥ 0) → onResize w h s = (s, [Action.setSize w h])) ∧
    (¬(w ≥ 0 ∧ h ≥ 0) → s.visible = true →
      onResize w h s = (s, [Action.resizeToFit])) := by
  refine ⟨rfl, rfl, fun hwh => ?_, fun hwh hv => ?_⟩
  · simp [onResize, hwh]
  · simp [onResize, hwh, hv]

/-- Witness for C10: a disposed, visible host still forwards focus and an
in-range resize. -/
theorem disposed_handlers_still_forward_witness :
    onActivateRequest ⟨[], true, true⟩ = (⟨[], true, true⟩, [Action.focus]) ∧
    onResize 80 24 ⟨[], true, true⟩
      = (⟨[], true, true⟩, [Action.setSize 80 24]) :=
  ⟨(disposed_handlers_still_forward ⟨[], true, true⟩ rfl 80 24).1,
   (disposed_handlers_still_forward ⟨[], true, true⟩ rfl 80 24).2.2.1
     (by decide)⟩

/-! ## The flag invariant -/

theorem onSelectionsChanged_exclusive (getLine : Nat → Option String)
    (sel : Selection) (s s2 : HostState)
    (h : onSelectionsChanged getLine sel s = some s2) :
    exclusiveFlags s2.classes := by
  unfold onSelectionsChanged at h
  split at h
  · injection h with h2
    subst h2
    rintro ⟨_, hws⟩
    exact not_mem_removeClass_self _ _ hws
  · split at h
    · cases h
    · split at h <;> injection h with h2 <;> subst h2
      · rintro ⟨hsel, _⟩
        rcases (mem_addClass_iff _ _ _).mp hsel with h1 | h2
        · exact not_mem_removeClass_self _ _ h1
        · exact class_names_distinct h2
      · rintro ⟨_, hws⟩
        exact not_mem_removeClass_self _ _ hws

theorem onAfterAttach_fst (s : HostState) : (onAfterAttach s).1 = s := by
  unfold onAfterAttach
  split <;> rfl

theorem onResize_fst (w h : Int) (s : HostState) : (onResize w h s).1 = s := by
  unfold onResize
  split
  · rfl
  · split <;> rfl

theorem dispose_classes (s : HostState) : (dispose s).1.classes = s.classes := by
  unfold dispose
  split <;> rfl

/-- C5: any successful step of the host preserves the invariant that at most
one of the two flags is on the node, and every event other than
selection-changed leaves the class list untouched, so only the
selection-changed handler ever adds either flag. -/
theorem flags_invariant (getLine : Nat → Option String) (e : HostEvent)
    (s s2 : HostState) (acts : List Action)
    (hstep : handleEvent getLine e s = some (s2, acts))
    (hex : exclusiveFlags s.classes) :
    exclusiveFlags s2.classes ∧
    ((∀ sel, e ≠ HostEvent.selectionsChanged sel) → s2.classes = s.classes) := by
  cases e with
  | activateRequest =>
    simp only [handleEvent, onActivateRequest, Option.some.injEq,
      Prod.mk.injEq] at hstep
    obtain ⟨rfl, rfl⟩ := hstep
    exact ⟨hex, fun _ => rfl⟩
  | afterAttach =>
    simp only [handleEvent, Option.some.injEq] at hstep
    have h1 : s2 = s := by
      have := congrArg Prod.fst hstep
      simpa [onAfterAttach_fst] using this.symm
    subst h1
    exact ⟨hex, fun _ => rfl⟩
  | afterShow =>
    simp only [handleEvent, onAfterShow, Option.some.injEq,
      Prod.mk.injEq] at hstep
    obtain ⟨rfl, rfl⟩ := hstep
    exact ⟨hex, fun _ => rfl⟩
  | resize w h =>
    simp only [handleEvent, Option.some.injEq] at hstep
    have h1 : s2 = s := by
      have := congrArg Prod.fst hstep
      simpa [onResize_fst] using this.symm
    subst h1
    exact ⟨hex, fun _ => rfl⟩
  | updateRequest =>
    simp only [handleEvent, onUpdateRequest, Option.some.injEq,
      Prod.mk.injEq] at hstep
    obtain ⟨rfl, rfl⟩ := hstep
    exact ⟨hex, fun _ => rfl⟩
  | disposeCall =>
    simp only [handleEvent, Option.some.injEq] at hstep
    have h1 : s2.classes = s.classes := by
      have := congrArg (fun p => p.1.classes) hstep
      simpa [dispose_classes] using this.symm
    refine ⟨?_, fun _ => h1⟩
    rw [exclusiveFlags, h1]
    exact hex
  | selectionsChanged sel =>
    refine ⟨?_, fun hno => absurd rfl (hno sel)⟩
    simp only [handleEvent, Option.map_eq_some'] at hstep
    obtain ⟨a, ha, hpair⟩ := hstep
    have h1 : a = s2 := congrArg Prod.fst hpair
    subst h1
    exact onSelectionsChanged_exclusive getLine sel s a ha

/-- Witness for C5: an update-request step from the empty class list. -/
theorem flags_invariant_witness :
    exclusiveFlags (HostState.classes ⟨[], false, false⟩) ∧
    ((∀ sel, HostEvent.updateRequest ≠ HostEvent.selectionsChanged sel) →
      HostState.classes ⟨[], false, false⟩
        = HostState.classes ⟨[], false, false⟩) :=
  flags_invariant (fun _ => none) HostEvent.updateRequest ⟨[], false, false⟩
    ⟨[], false, false⟩ [Action.refresh] rfl (by simp [exclusiveFlags])

/-! ## Claims about construction and handler totality -/

/-- C7: the constructor calls the factory exactly once, with the host's own
node and the options' model, uuid, config and selectionStyle unmodified; it
stores the factory's result; it connects the selection-changed handler
exactly when the factory succeeds, and a factory exception propagates with
no subscription made. -/
theorem construct_contract {N M U C S E ε : Type}
    (factory : FactoryArgs N M U C S → Except ε E)
    (options : WrapperOptions M U C S) (node : N) :
    (mkFactoryArgs options node).host = node ∧
    (mkFactoryArgs options node).model = options.model ∧
    (mkFactoryArgs options node).uuid = options.uuid ∧
    (mkFactoryArgs options node).config = options.config ∧
    (mkFactoryArgs options node).selectionStyle = options.selectionStyle ∧
    (construct factory options node).1 = factory (mkFactoryArgs options node) ∧
    (∀ e, factory (mkFactoryArgs options node) = Except.error e →
      (construct factory options node).2
        = [ConstructEvent.factoryCalled (mkFactoryArgs options node)]) ∧
    (∀ ed, factory (mkFactoryArgs options node) = Except.ok ed →
      (construct factory options node).2
        = [ConstructEvent.factoryCalled (mkFactoryArgs options node),
           ConstructEvent.connectedSelectionsChanged]) := by
  refine ⟨rfl, rfl, rfl, rfl, rfl, ?_, ?_, ?_⟩
  · rcases hf : factory (mkFactoryArgs options node) with e | ed <;>
      simp [construct, hf]
  · intro e hf
    simp [construct, hf]
  · intro ed hf
    simp [construct, hf]

/-- Witness for C7: a succeeding factory over `Nat`-typed components. -/
theorem construct_contract_witness :
    (construct
        (fun _ => Except.ok 7 :
          FactoryArgs Nat Nat Nat Nat Nat → Except Nat Nat)
        (⟨1, none, none, none⟩ : WrapperOptions Nat Nat Nat Nat) (3 : Nat)).2
      = [ConstructEvent.factoryCalled
           (mkFactoryArgs (⟨1, none, none, none⟩ : WrapperOptions Nat Nat Nat Nat) 3),
         ConstructEvent.connectedSelectionsChanged] :=
  (construct_contract
    (fun _ => Except.ok 7 : FactoryArgs Nat Nat Nat Nat Nat → Except Nat Nat)
    ⟨1, none, none, none⟩ 3).2.2.2.2.2.2.2 7 rfl

/-- C9: on a range selection the handler always succeeds and its outcome is
the same for every `getLine`, so that branch never consults the line text;
on a caret whose line the editor does not yield, the handler throws
(modelled as `none`), since the slice is taken without a definedness
check. -/
theorem selection_handler_totality (getLine : Nat → Option String)
    (sel : Selection) (s : HostState) :
    ((sel.start.column ≠ sel.«end».column ∨ sel.start.line ≠ sel.«end».line) →
      (onSelectionsChanged getLine sel s).isSome = true ∧
      ∀ getLine2, onSelectionsChanged getLine sel s
        = onSelectionsChanged getLine2 sel s) ∧
    (sel.start.column = sel.«end».column → sel.start.line = sel.«end».line →
      getLine sel.«end».line = none →
      onSelectionsChanged getLine sel s = none) := by
  constructor
  · intro h
    constructor
    · simp only [onSelectionsChanged, if_pos h, Option.isSome_some]
    · intro getLine2
      simp only [onSelectionsChanged, if_pos h]
  · intro hc hl hnone
    have hcond :
        ¬(sel.start.column ≠ sel.«end».column ∨ sel.start.line ≠ sel.«end».line) := by
      simp [hc, hl]
    simp only [onSelectionsChanged, if_neg hcond, hnone]

/-- Witness for C9: a caret on a line the editor yields nothing for makes
the handler throw. -/
theorem selection_handler_totality_witness :
    onSelectionsChanged (fun _ => none) ⟨⟨0, 0⟩, ⟨0, 0⟩⟩ ⟨[], false, false⟩
      = none :=
  (selection_handler_totality (fun _ => none) ⟨⟨0, 0⟩, ⟨0, 0⟩⟩
    ⟨[], false, false⟩).2 rfl rfl rfl

end CodeEditorWidget
